import Mathlib

/-!
Verification of the C++ practices style-guide document
(`src/codeformatting/c++practices.cpp`, a Markdown essay).

The document embeds illustrative code fragments.  We shallowly embed the
fragments the claims are about:

* the SI-prefix while loop (document lines 87-99): bytes are repeatedly
  divided by 1000.0 while a prefix index advances through
  `{"", "k", "M", "G", "T"}`;
* the `find_if` rewrite (document lines 104-127): a descending array of
  `PrefixSpec \x7bchar prefix; unsigned long long factor;\x7d` entries with
  binary factors `2^60 .. 2^10` and a `{NUL, 0}` sentinel, searched with
  `find_if` for the first factor `<= size`, then formatted either with a
  prefix (scaled quantity) or as a plain unprefixed size;
* the nested-if fragment and its early-exit rewrite (document lines
  282-317), modelled by the sequence of function calls they perform;
* textual structure of the document: its heading sequence, its
  front-matter lines, and the identifiers declared/used by the two
  prefix-example code blocks.

`double` arithmetic is modelled over `ℚ`: the properties proved here
(iteration bounds, branch selection, extensional (in)equality at concrete
small inputs) are decided by comparisons with 1000 and exact divisions
that rationals model faithfully.
-/

/-- `constexpr double siFactor {1000.0};` from the while-loop block. -/
def siFactor : ℚ := 1000

/-- `constexpr std::array<std::string_view, 5> prefixes {"", "k", "M", "G", "T"};` -/
def prefixes : List String := ["", "k", "M", "G", "T"]

/-- The while loop
`while (inUnits > siFactor && base < prefixes.size() - 1) { ++base; inUnits /= siFactor; }`.
The loop guard keeps `base < prefixes.size() - 1 = 4` and each iteration
increments `base`, so `prefixes.size() - 1 - base` fuel always suffices;
fuel exhaustion returns the current state (shown unreachable from the
initial state below). -/
def siLoopGo : ℕ → ℕ → ℚ → ℕ × ℚ
  | 0, base, inUnits => (base, inUnits)
  | f + 1, base, inUnits =>
    if siFactor < inUnits ∧ base < prefixes.length - 1 then
      siLoopGo f (base + 1) (inUnits / siFactor)
    else
      (base, inUnits)

/-- The whole while-loop fragment: start at `base = 0`, `inUnits = bytes`. -/
def siLoop (bytes : ℚ) : ℕ × ℚ :=
  siLoopGo (prefixes.length - 1) 0 bytes

/-- `auto prefix = prefixes[base];` after the loop (out-of-range access
modelled by the default `""`, proved unreachable). -/
def siPrefixOf (bytes : ℚ) : String :=
  prefixes.getD (siLoop bytes).1 ""

/-- The while-loop fragment on an integral byte count, returning the
selected prefix and the scaled quantity `inUnits`. -/
def siLoopFormat (n : ℕ) : String × ℚ :=
  (siPrefixOf (n : ℚ), (siLoop (n : ℚ)).2)

/-- `using PrefixSpec = struct { char prefix; unsigned long long factor; };`
(the `prefix` field is named `sym` here because `prefix` is reserved in
Lean). -/
structure PrefixSpec where
  sym : Char
  factor : ℕ
deriving DecidableEq

/-- `static constexpr std::array<PrefixSpec, 7> sortedPrefixes { ... };` -/
def sortedPrefixes : List PrefixSpec :=
  [⟨'E', 2 ^ 60⟩, ⟨'P', 2 ^ 50⟩, ⟨'T', 2 ^ 40⟩, ⟨'G', 2 ^ 30⟩,
   ⟨'M', 2 ^ 20⟩, ⟨'k', 2 ^ 10⟩, ⟨Char.ofNat 0, 0⟩]

/-- `std::find_if(..., [&](const auto& spec) { return spec.factor <= size; })`:
the first entry whose factor is at most `size`. -/
def selectSpec (ps : List PrefixSpec) (size : ℕ) : Option PrefixSpec :=
  ps.find? (fun spec => spec.factor ≤ size)

/-- The result of the formatting expression: either a scaled quantity with
a prefix character (`fmt::format("{:.1f} {}B", size / res->factor, res->prefix)`,
kept as the exact rational and the character) or the plain unprefixed size
(`fmt::format("{} B", size)`). -/
inductive FormattedSize where
  | withPrefix (q : ℚ) (c : Char)
  | plain (n : ℕ)
deriving DecidableEq

/-- The ternary `res->factor ? ... : ...` applied to the `find_if` result;
`none` models the undefined dereference when `find_if` finds nothing. -/
def formatSize (ps : List PrefixSpec) (size : ℕ) : Option FormattedSize :=
  match selectSpec ps size with
  | some spec =>
    some (if spec.factor ≠ 0 then
            FormattedSize.withPrefix ((size : ℚ) / (spec.factor : ℚ)) spec.sym
          else
            FormattedSize.plain size)
  | none => none

/-- The `find_if` fragment over its own `sortedPrefixes` data. -/
def findIfFormat (size : ℕ) : Option FormattedSize :=
  formatSize sortedPrefixes size

/-- The prefix a formatted result carries, as a string (the sentinel branch
carries none). -/
def FormattedSize.prefixStr : FormattedSize → String
  | .withPrefix _ c => String.singleton c
  | .plain _ => ""

/-- The (scaled) quantity a formatted result carries. -/
def FormattedSize.quantity : FormattedSize → ℚ
  | .withPrefix q _ => q
  | .plain n => (n : ℚ)

/-- Whether the unprefixed fallback branch `fmt::format("{} B", size)` was
taken. -/
def FormattedSize.isPlain : FormattedSize → Bool
  | .withPrefix _ _ => false
  | .plain _ => true

/-- `sortedPrefixes` with the `'M'` and `'k'` entries exchanged: a
permutation of the same seven entries in a different order. -/
def permutedPrefixes : List PrefixSpec :=
  [⟨'E', 2 ^ 60⟩, ⟨'P', 2 ^ 50⟩, ⟨'T', 2 ^ 40⟩, ⟨'G', 2 ^ 30⟩,
   ⟨'k', 2 ^ 10⟩, ⟨'M', 2 ^ 20⟩, ⟨Char.ofNat 0, 0⟩]

/-- The nested-if fragment (document lines 283-298), modelled by the
sequence of function calls it performs, in order, as a function of the
three condition booleans. -/
def nestedCalls (something somethingElse somethingElseAgain : Bool) : List String :=
  if something then
    "doSomething" ::
      (if somethingElse then
        "doSomethingElse" ::
          (if somethingElseAgain then ["doThing"] else ["doDifferent"])
      else
        ["doTheOther"])
  else
    ["doNothing"]

/-- The early-exit rewrite (document lines 302-317): straight-line code
where each `if (!cond) { call(); return; }` prunes a branch, modelled by
the sequence of calls performed. -/
def earlyExitCalls (something somethingElse somethingElseAgain : Bool) : List String :=
  if !something then
    ["doNothing"]
  else
    ["doSomething"] ++
      (if !somethingElse then
        ["doTheOther"]
      else
        ["doSomethingElse"] ++
          (if !somethingElseAgain then ["doDifferent"] else ["doThing"]))

/-- The sequence of Markdown heading lines of the document, in order of
appearance (document lines 5, 19, 30, 132, 143, 160, 172, 225, 245, 256,
267, 271, 319, 355, 417, 426, 445, 469, 490, 531, 541, 560, 580). -/
def docHeadings : List String :=
  ["# C++ coding practices",
   "## Avoid anonymous namespaces",
   "## Algorithms and data structures",
   "## Code comments",
   "## Conditionals",
   "## Const correctness",
   "## Reducing dependencies",
   "## Code design",
   "## Enums",
   "## Minimize getters and setters",
   "## Appropriate typing",
   "## Main code path and indentation",
   "## Initialization",
   "## Lambdas",
   "## Avoid macros",
   "## Avoid magic literals",
   "## Good naming",
   "## out parameter 👎",
   "## repetition 👎",
   "## static 👎",
   "## ternary operator 👍",
   "## unit test 👍",
   "## variable sets 👎"]

/-- The first five lines of the document: the three-line static-site
front-matter block, a blank line, and the title heading. -/
def docHead : List String :=
  ["---", "layout: default", "---", "", "# C++ coding practices"]

/-- A fenced code block, abstracted to the identifiers it declares and the
identifiers it refers to (keywords excluded; qualified names kept
qualified). -/
structure CodeBlock where
  declared : List String
  used : List String

/-- Standard-library, language and well-known-library names a snippet may
use without declaring them. -/
def stdNames : List String :=
  ["std::array", "std::string_view", "std::find_if", "fmt::format",
   "size_t", "double", "char", "unsigned long long"]

/-- A block is self-contained when every identifier it uses is declared in
the block itself or is a standard name. -/
def selfContained (b : CodeBlock) : Bool :=
  b.used.all (fun s => b.declared.contains s || stdNames.contains s)

/-- The while-loop block (document lines 87-99): declares `prefixes`,
`base`, `inUnits`, `siFactor`, `prefix`; refers to those, to standard
names, and to `bytes`, which no line of the block declares. -/
def whileBlock : CodeBlock where
  declared := ["prefixes", "base", "inUnits", "siFactor", "prefix"]
  used := ["std::array", "std::string_view", "size_t", "double",
           "bytes", "inUnits", "siFactor", "base", "prefixes"]

/-- The `find_if` block (document lines 104-127): declares `PrefixSpec`,
`sortedPrefixes`, `res` and the lambda parameter `spec`; refers to
standard names, to `prefixes` (declared only in the previous block), and
to `size`, which no block declares. -/
def findIfBlock : CodeBlock where
  declared := ["PrefixSpec", "sortedPrefixes", "res", "spec"]
  used := ["std::array", "std::find_if", "fmt::format", "double",
           "unsigned long long", "char", "prefixes", "spec", "size", "res"]

/-- The two code blocks of the SI-prefix example. -/
def exampleBlocks : List CodeBlock := [whileBlock, findIfBlock]

/-- The identifiers that escape their block in the SI-prefix example:
`bytes` and `size` are declared nowhere, `prefixes` only in the other
block. -/
def escapedNames : List String := ["bytes", "size", "prefixes"]

/-! ## Helper lemmas about the while loop -/

/-- The loop guard `base < prefixes.size() - 1` keeps the index at most
`prefixes.size() - 1`, whatever the fuel. -/
theorem siLoopGo_fst_le (f : ℕ) :
    ∀ (base : ℕ) (u : ℚ), base ≤ prefixes.length - 1 →
      (siLoopGo f base u).1 ≤ prefixes.length - 1 := by
  induction f with
  | zero => intro base u h; exact h
  | succ f ih =>
    intro base u h
    simp only [siLoopGo]
    split
    · next hc => exact ih (base + 1) (u / siFactor) (by have := hc.2; omega)
    · exact h

/-- Once the fuel covers the remaining guard budget
`prefixes.size() - 1 - base`, more fuel does not change the result: the
loop has terminated. -/
theorem siLoopGo_stable (f : ℕ) :
    ∀ (g base : ℕ) (u : ℚ), prefixes.length - 1 - base ≤ f →
      prefixes.length - 1 - base ≤ g →
      siLoopGo f base u = siLoopGo g base u := by
  induction f with
  | zero =>
    intro g base u hf _
    have hb : ¬ base < prefixes.length - 1 := by omega
    cases g with
    | zero => rfl
    | succ g =>
      simp only [siLoopGo]
      rw [if_neg (fun hc => hb hc.2)]
  | succ f ih =>
    intro g base u hf hg
    cases g with
    | zero =>
      have hb : ¬ base < prefixes.length - 1 := by omega
      simp only [siLoopGo]
      rw [if_neg (fun hc => hb hc.2)]
    | succ g =>
      simp only [siLoopGo]
      by_cases hc : siFactor < u ∧ base < prefixes.length - 1
      · rw [if_pos hc, if_pos hc]
        have hb := hc.2
        exact ih g (base + 1) (u / siFactor) (by omega) (by omega)
      · rw [if_neg hc, if_neg hc]

/-- Closed-form characterization of the `find_if` fragment: the first
binary factor at most `size` wins, and the sentinel yields the plain
branch. -/
theorem findIfFormat_eq (size : ℕ) :
    findIfFormat size =
      some (if 2 ^ 60 ≤ size then FormattedSize.withPrefix ((size : ℚ) / 2 ^ 60) 'E'
            else if 2 ^ 50 ≤ size then FormattedSize.withPrefix ((size : ℚ) / 2 ^ 50) 'P'
            else if 2 ^ 40 ≤ size then FormattedSize.withPrefix ((size : ℚ) / 2 ^ 40) 'T'
            else if 2 ^ 30 ≤ size then FormattedSize.withPrefix ((size : ℚ) / 2 ^ 30) 'G'
            else if 2 ^ 20 ≤ size then FormattedSize.withPrefix ((size : ℚ) / 2 ^ 20) 'M'
            else if 2 ^ 10 ≤ size then FormattedSize.withPrefix ((size : ℚ) / 2 ^ 10) 'k'
            else FormattedSize.plain size) := by
  by_cases h60 : 2 ^ 60 ≤ size
  · have a60 : 1152921504606846976 ≤ size := by simpa using h60
    rw [if_pos h60]
    simp [findIfFormat, formatSize, selectSpec, sortedPrefixes, List.find?, a60]
    norm_num
  · have a60 : ¬ 1152921504606846976 ≤ size := by simpa using h60
    rw [if_neg h60]
    by_cases h50 : 2 ^ 50 ≤ size
    · have a50 : 1125899906842624 ≤ size := by simpa using h50
      rw [if_pos h50]
      simp [findIfFormat, formatSize, selectSpec, sortedPrefixes, List.find?, a60, a50]
      norm_num
    · have a50 : ¬ 1125899906842624 ≤ size := by simpa using h50
      rw [if_neg h50]
      by_cases h40 : 2 ^ 40 ≤ size
      · have a40 : 1099511627776 ≤ size := by simpa using h40
        rw [if_pos h40]
        simp [findIfFormat, formatSize, selectSpec, sortedPrefixes, List.find?, a60, a50, a40]
        norm_num
      · have a40 : ¬ 1099511627776 ≤ size := by simpa using h40
        rw [if_neg h40]
        by_cases h30 : 2 ^ 30 ≤ size
        · have a30 : 1073741824 ≤ size := by simpa using h30
          rw [if_pos h30]
          simp [findIfFormat, formatSize, selectSpec, sortedPrefixes, List.find?, a60, a50, a40, a30]
          norm_num
        · have a30 : ¬ 1073741824 ≤ size := by simpa using h30
          rw [if_neg h30]
          by_cases h20 : 2 ^ 20 ≤ size
          · have a20 : 1048576 ≤ size := by simpa using h20
            rw [if_pos h20]
            simp [findIfFormat, formatSize, selectSpec, sortedPrefixes, List.find?, a60, a50, a40, a30, a20]
            norm_num
          · have a20 : ¬ 1048576 ≤ size := by simpa using h20
            rw [if_neg h20]
            by_cases h10 : 2 ^ 10 ≤ size
            · have a10 : 1024 ≤ size := by simpa using h10
              rw [if_pos h10]
              simp [findIfFormat, formatSize, selectSpec, sortedPrefixes, List.find?, a60, a50, a40, a30, a20, a10]
              norm_num
            · have a10 : ¬ 1024 ≤ size := by simpa using h10
              rw [if_neg h10]
              simp [findIfFormat, formatSize, selectSpec, sortedPrefixes, List.find?, a60, a50, a40, a30, a20, a10]

/-- Closed-form characterization of the `find_if` selection itself. -/
theorem selectSpec_sorted_eq (size : ℕ) :
    selectSpec sortedPrefixes size =
      some (if 2 ^ 60 ≤ size then ⟨'E', 2 ^ 60⟩
            else if 2 ^ 50 ≤ size then ⟨'P', 2 ^ 50⟩
            else if 2 ^ 40 ≤ size then ⟨'T', 2 ^ 40⟩
            else if 2 ^ 30 ≤ size then ⟨'G', 2 ^ 30⟩
            else if 2 ^ 20 ≤ size then ⟨'M', 2 ^ 20⟩
            else if 2 ^ 10 ≤ size then ⟨'k', 2 ^ 10⟩
            else ⟨Char.ofNat 0, 0⟩) := by
  by_cases h60 : 2 ^ 60 ≤ size
  · have a60 : 1152921504606846976 ≤ size := by simpa using h60
    rw [if_pos h60]
    simp [selectSpec, sortedPrefixes, List.find?, a60]
  · have a60 : ¬ 1152921504606846976 ≤ size := by simpa using h60
    rw [if_neg h60]
    by_cases h50 : 2 ^ 50 ≤ size
    · have a50 : 1125899906842624 ≤ size := by simpa using h50
      rw [if_pos h50]
      simp [selectSpec, sortedPrefixes, List.find?, a60, a50]
    · have a50 : ¬ 1125899906842624 ≤ size := by simpa using h50
      rw [if_neg h50]
      by_cases h40 : 2 ^ 40 ≤ size
      · have a40 : 1099511627776 ≤ size := by simpa using h40
        rw [if_pos h40]
        simp [selectSpec, sortedPrefixes, List.find?, a60, a50, a40]
      · have a40 : ¬ 1099511627776 ≤ size := by simpa using h40
        rw [if_neg h40]
        by_cases h30 : 2 ^ 30 ≤ size
        · have a30 : 1073741824 ≤ size := by simpa using h30
          rw [if_pos h30]
          simp [selectSpec, sortedPrefixes, List.find?, a60, a50, a40, a30]
        · have a30 : ¬ 1073741824 ≤ size := by simpa using h30
          rw [if_neg h30]
          by_cases h20 : 2 ^ 20 ≤ size
          · have a20 : 1048576 ≤ size := by simpa using h20
            rw [if_pos h20]
            simp [selectSpec, sortedPrefixes, List.find?, a60, a50, a40, a30, a20]
          · have a20 : ¬ 1048576 ≤ size := by simpa using h20
            rw [if_neg h20]
            by_cases h10 : 2 ^ 10 ≤ size
            · have a10 : 1024 ≤ size := by simpa using h10
              rw [if_pos h10]
              simp [selectSpec, sortedPrefixes, List.find?, a60, a50, a40, a30, a20, a10]
            · have a10 : ¬ 1024 ≤ size := by simpa using h10
              rw [if_neg h10]
              simp [selectSpec, sortedPrefixes, List.find?, a60, a50, a40, a30, a20, a10]

/-! ## The claims -/

/-- Claim C1, refuting scenario: the byte-prefix fragment does embed as a
function processing an input into an output, with literal inputs and
expected outputs: 5000 bytes map to the prefix "k" and 2000000 bytes to
"M". -/
theorem siPrefixOf_io_scenario :
    siPrefixOf 5000 = "k" ∧ siPrefixOf 2000000 = "M" := by
  constructor
  · norm_num [siPrefixOf, siLoop, siLoopGo, prefixes, siFactor]
  · norm_num [siPrefixOf, siLoop, siLoopGo, prefixes, siFactor]

/-- Claim C1 (amended): the repository's content does contain a
shallowly embeddable algorithm: the byte-prefix while loop embeds as a
total function from a byte count to a prefix, and for every input the
output is one of the five prefixes of the fragment. -/
theorem siPrefixOf_total_mem (bytes : ℚ) : siPrefixOf bytes ∈ prefixes := by
  have h1 : (siLoop bytes).1 ≤ prefixes.length - 1 :=
    siLoopGo_fst_le (prefixes.length - 1) 0 bytes (Nat.zero_le _)
  have h2 : (siLoop bytes).1 < prefixes.length := by
    have h5 : prefixes.length = 5 := rfl
    omega
  rw [siPrefixOf, List.getD_eq_getElem prefixes "" h2]
  exact List.getElem_mem h2

/-- Claim C4: for every non-negative input the while loop terminates
within `prefixes.size() - 1 = 4` iterations (any fuel at least 4 gives the
same result), and on exit the index is within the bounds of the 5-element
array, so `prefixes[base]` never goes out of bounds. -/
theorem siLoop_safety (bytes : ℚ) (h : 0 ≤ bytes) :
    (siLoop bytes).1 < prefixes.length ∧
      ∀ f, prefixes.length - 1 ≤ f → siLoopGo f 0 bytes = siLoop bytes := by
  constructor
  · have h1 : (siLoop bytes).1 ≤ prefixes.length - 1 :=
      siLoopGo_fst_le (prefixes.length - 1) 0 bytes (Nat.zero_le _)
    have h5 : prefixes.length = 5 := rfl
    omega
  · intro f hf
    exact siLoopGo_stable f (prefixes.length - 1) 0 bytes (by omega) (by omega)

/-- Witness for C4 at the concrete input 5000: the index is in bounds and
extra fuel (7) changes nothing. -/
theorem siLoop_safety_witness :
    (0 : ℚ) ≤ 5000 ∧ (siLoop 5000).1 < prefixes.length ∧
      siLoopGo 7 0 5000 = siLoop 5000 :=
  ⟨by norm_num, (siLoop_safety 5000 (by norm_num)).1,
    (siLoop_safety 5000 (by norm_num)).2 7 (by norm_num [prefixes])⟩

/-- Claim C6: on every assignment of the three booleans, the nested-if
fragment and its early-exit rewrite perform exactly the same calls in the
same order. -/
theorem nested_earlyExit_equal (something somethingElse somethingElseAgain : Bool) :
    nestedCalls something somethingElse somethingElseAgain =
      earlyExitCalls something somethingElse somethingElseAgain := by
  cases something <;> cases somethingElse <;> cases somethingElseAgain <;> rfl

/-- Claim C9: the document opens with the three-line front-matter block
`---` / `layout: default` / `---`. -/
theorem docHead_frontMatter :
    docHead.take 3 = ["---", "layout: default", "---"] := rfl

/-- Claim C2, counterexample: at 2000 bytes the while loop yields the
prefix "k" with scaled quantity 2000 / 1000 = 2, while the `find_if`
rewrite yields "k" with 2000 / 1024 = 125/64, so the two fragments are not
extensionally equal. -/
theorem loop_findIf_differ_at_2000 :
    (findIfFormat 2000).map (fun r => (r.prefixStr, r.quantity)) ≠
      some (siLoopFormat 2000) := by
  have h1 : (findIfFormat 2000).map (fun r => (r.prefixStr, r.quantity)) =
      some ("k", 125 / 64) := by
    rw [findIfFormat_eq]
    norm_num [FormattedSize.prefixStr, FormattedSize.quantity]
    rfl
  have h2 : siLoopFormat 2000 = ("k", 2) := by
    norm_num [siLoopFormat, siPrefixOf, siLoop, siLoopGo, prefixes, siFactor]
  rw [h1, h2]
  norm_num

/-- Claim C2 (amended): the while loop and the `find_if` rewrite are not
extensionally equal (they differ at 2000 bytes), but they do agree on
every byte count of at most 1000, where both select no prefix and leave
the quantity unscaled. -/
theorem loop_findIf_agree_le_1000 (n : ℕ) (h : n ≤ 1000) :
    (findIfFormat n).map (fun r => (r.prefixStr, r.quantity)) =
      some (siLoopFormat n) := by
  have p10 : (2 : ℕ) ^ 10 = 1024 := by norm_num
  have p20 : (2 : ℕ) ^ 20 = 1048576 := by norm_num
  have p30 : (2 : ℕ) ^ 30 = 1073741824 := by norm_num
  have p40 : (2 : ℕ) ^ 40 = 1099511627776 := by norm_num
  have p50 : (2 : ℕ) ^ 50 = 1125899906842624 := by norm_num
  have p60 : (2 : ℕ) ^ 60 = 1152921504606846976 := by norm_num
  have h60 : ¬ 2 ^ 60 ≤ n := by omega
  have h50 : ¬ 2 ^ 50 ≤ n := by omega
  have h40 : ¬ 2 ^ 40 ≤ n := by omega
  have h30 : ¬ 2 ^ 30 ≤ n := by omega
  have h20 : ¬ 2 ^ 20 ≤ n := by omega
  have h10 : ¬ 2 ^ 10 ≤ n := by omega
  rw [findIfFormat_eq, if_neg h60, if_neg h50, if_neg h40, if_neg h30,
    if_neg h20, if_neg h10]
  have hql : (n : ℚ) ≤ siFactor := by
    rw [siFactor]
    exact_mod_cast h
  have hloop : siLoop (n : ℚ) = (0, (n : ℚ)) := by
    have hstep : siLoop (n : ℚ) =
        if siFactor < (n : ℚ) ∧ 0 < prefixes.length - 1 then
          siLoopGo 3 1 ((n : ℚ) / siFactor)
        else (0, (n : ℚ)) := rfl
    rw [hstep, if_neg]
    intro hc
    exact absurd hc.1 (not_lt.2 hql)
  simp [siLoopFormat, siPrefixOf, hloop, prefixes, FormattedSize.prefixStr,
    FormattedSize.quantity]

/-- Witness for the amended C2 at the concrete byte count 500. -/
theorem loop_findIf_agree_le_1000_witness :
    (500 : ℕ) ≤ 1000 ∧
      (findIfFormat 500).map (fun r => (r.prefixStr, r.quantity)) =
        some (siLoopFormat 500) :=
  ⟨by norm_num, loop_findIf_agree_le_1000 500 (by norm_num)⟩

/-- Claim C3, counterexample: exchanging the `'M'` and `'k'` entries gives
a permutation of `sortedPrefixes` on which the `find_if` selection-and-
format computation changes its result at size `2^20`: the original list
yields `1 M`, the permuted one `1024 k`. -/
theorem findIf_order_dependent :
    permutedPrefixes.Perm sortedPrefixes ∧
      formatSize permutedPrefixes (2 ^ 20) ≠ formatSize sortedPrefixes (2 ^ 20) := by
  constructor
  · decide
  · have h1 : formatSize permutedPrefixes (2 ^ 20) =
        some (FormattedSize.withPrefix 1024 'k') := by
      norm_num [formatSize, selectSpec, permutedPrefixes, List.find?]
    have h2 : formatSize sortedPrefixes (2 ^ 20) =
        some (FormattedSize.withPrefix 1 'M') := by
      norm_num [formatSize, selectSpec, sortedPrefixes, List.find?]
    rw [h1, h2]
    simp

/-- Claim C3 (amended): the `find_if` selection does depend on the order
of the entries in general; what holds for the descending-sorted
`sortedPrefixes` is the order-independent characterization that the
selected entry has the greatest factor not exceeding `size` among all
entries. -/
theorem selectSpec_sorted_is_max (size : ℕ) :
    ∃ spec, selectSpec sortedPrefixes size = some spec ∧ spec.factor ≤ size ∧
      ∀ s ∈ sortedPrefixes, s.factor ≤ size → s.factor ≤ spec.factor := by
  have hsel := selectSpec_sorted_eq size
  split_ifs at hsel with h60 h50 h40 h30 h20 h10
  · refine ⟨_, hsel, h60, ?_⟩
    intro s hs _
    fin_cases hs <;> norm_num
  · refine ⟨_, hsel, h50, ?_⟩
    intro s hs hle
    norm_num at h60
    fin_cases hs <;> norm_num at hle ⊢ <;> omega
  · refine ⟨_, hsel, h40, ?_⟩
    intro s hs hle
    norm_num at h60 h50
    fin_cases hs <;> norm_num at hle ⊢ <;> omega
  · refine ⟨_, hsel, h30, ?_⟩
    intro s hs hle
    norm_num at h60 h50 h40
    fin_cases hs <;> norm_num at hle ⊢ <;> omega
  · refine ⟨_, hsel, h20, ?_⟩
    intro s hs hle
    norm_num at h60 h50 h40 h30
    fin_cases hs <;> norm_num at hle ⊢ <;> omega
  · refine ⟨_, hsel, h10, ?_⟩
    intro s hs hle
    norm_num at h60 h50 h40 h30 h20
    fin_cases hs <;> norm_num at hle ⊢ <;> omega
  · refine ⟨_, hsel, Nat.zero_le size, ?_⟩
    intro s hs hle
    norm_num at h60 h50 h40 h30 h20 h10
    fin_cases hs <;> norm_num at hle ⊢ <;> omega

/-- Claim C5, counterexample: at size 500 the formatting expression takes
the unprefixed fallback branch `fmt::format("{} B", size)`. -/
theorem findIfFormat_fallback_at_500 :
    findIfFormat 500 = some (FormattedSize.plain 500) := by decide

/-- Claim C5 (amended): the formatting expression does distinguish two
cases: the unprefixed fallback branch is taken exactly for sizes below
1024, and the prefixed branch for all larger sizes. -/
theorem findIfFormat_plain_iff (size : ℕ) :
    findIfFormat size = some (FormattedSize.plain size) ↔ size < 1024 := by
  rw [findIfFormat_eq]
  by_cases h10 : 2 ^ 10 ≤ size
  · have a10 : 1024 ≤ size := by simpa using h10
    simp only [Option.some.injEq]
    split_ifs <;> simp_all
  · have a10 : ¬ 1024 ≤ size := by simpa using h10
    have b60 : ¬ 2 ^ 60 ≤ size := by norm_num; omega
    have b50 : ¬ 2 ^ 50 ≤ size := by norm_num; omega
    have b40 : ¬ 2 ^ 40 ≤ size := by norm_num; omega
    have b30 : ¬ 2 ^ 30 ≤ size := by norm_num; omega
    have b20 : ¬ 2 ^ 20 ≤ size := by norm_num; omega
    rw [if_neg b60, if_neg b50, if_neg b40, if_neg b30, if_neg b20, if_neg h10]
    simp
    omega

/-- Claim C7, counterexample: the document's heading sequence has odd
length 23, so its text does not split into two sections with identical
contents. -/
theorem docHeadings_not_doubled :
    ¬ ∃ l : List String, docHeadings = l ++ l := by
  rintro ⟨l, hl⟩
  have h1 : docHeadings.length = 23 := rfl
  rw [hl, List.length_append] at h1
  omega

/-- Claim C7 (amended): the provided source is a single essay whose
content appears once: every section heading occurs exactly once. -/
theorem docHeadings_nodup : docHeadings.Nodup := by decide

/-- Claim C8, counterexample: neither code block of the SI-prefix example
is self-contained: the while block uses `bytes` and the `find_if` block
uses `size` and `prefixes` without declaring them. -/
theorem codeBlocks_not_selfContained :
    selfContained whileBlock = false ∧ selfContained findIfBlock = false := by
  decide

/-- Claim C8 (amended): apart from the three escaping identifiers
(`bytes`, `size`, `prefixes`), every identifier used in the two blocks is
declared in its own block or is a standard name. -/
theorem codeBlocks_selfContained_except :
    exampleBlocks.all (fun b => b.used.all
      (fun s => escapedNames.contains s || b.declared.contains s ||
        stdNames.contains s)) = true := by
  decide
